import Mathlib

/-!
Verification of the concurrent hashing server (`src/unnamed/part_000`, package
`main`) and the basic password server
(`src/src/github.com/mwaldtha/pwdsrv/password_server.go`).

The Go code is shallowly embedded:
* `int32` values are embedded as `Int` together with `int32Wrap`, which wraps
  into the range `[-2^31, 2^31)` exactly as Go's two's-complement `int32`
  arithmetic (and Go's `int32(x)` conversion) does;
* `float64` arithmetic is embedded as exact rational (`ℚ`) arithmetic;
* the global mutable state of the server (the `hashes` map, `jobCounter`,
  `hashStats`, `stopping`) is embedded as an explicit `ServerState` record,
  and the handlers become state-passing functions;
* the deferred `hashAndEncode` invocations (which sleep five seconds before
  computing and storing the digest) are kept in a `pending` queue, and a
  separate `Ev.runJob` step executes the oldest one, so that the time window
  between a handler finishing and its digest being stored is observable, as
  it is in the real concurrent server;
* the pluggable digest function (SHA-512 followed by standard base64 in the
  source, declared an external collaborator by the specification) is a
  parameter `digest : String → String`.
-/

/-- Go two's-complement wrap into `int32`: the unique representative of
`n` modulo `2^32` lying in `[-2^31, 2^31)`.  This is both what Go's
`int32(x)` conversion computes and what `atomic.AddInt32` overflow does. -/
def int32Wrap (n : Int) : Int :=
  (n + 2 ^ 31) % 2 ^ 32 - 2 ^ 31

/-- The `HashStat` struct of the concurrent server (part_000, lines 33-36):
`Total int32` and `Average float64`, the latter embedded as `ℚ`. -/
structure HashStat where
  total : Int
  average : ℚ
deriving DecidableEq

/-- `updateStats` (part_000, lines 213-221), sequential view: load the
published snapshot, increment the total (a wrapping `int32` add), convert the
duration to milliseconds and fold it into the running average with
`avg = (oldAvg*(num-1) + durationMilli) / num`, and publish the new snapshot.
The in-place mutation of the loaded snapshot and the interleaving of the
load/add/store steps are modelled separately (`recordPtr`, `threadStep`). -/
def updateStats (hs : HashStat) (durationNano : Int) : HashStat :=
  let num : Int := int32Wrap (hs.total + 1)
  let durationMilli : ℚ := (durationNano : ℚ) / 1000000
  let avg : ℚ := (hs.average * ((num : ℚ) - 1) + durationMilli) / (num : ℚ)
  { total := num, average := avg }

/-- Folding `updateStats` over a list of durations (nanoseconds), i.e. the
stats cell after a sequence of completed `updateStats` calls. -/
def recordAll (hs : HashStat) (ds : List Int) : HashStat :=
  ds.foldl updateStats hs

/-- Decimal digit test on a character (`'0'` has code point 48). -/
def isDecDigit (c : Char) : Bool :=
  48 ≤ c.toNat && c.toNat ≤ 57

/-- Go's `strconv.Atoi`: an optional single `+`/`-` sign followed by at least
one decimal digit, with the result required to fit in a signed 64-bit `int`
(Go returns an error on syntax violations and on overflow, and the handler
treats any error as a bad request).  Implemented over the character list of
the string. -/
def goAtoi (s : String) : Option Int :=
  let (sign, digits) :=
    match s.data with
    | '-' :: rest => ((-1 : Int), rest)
    | '+' :: rest => ((1 : Int), rest)
    | cs => ((1 : Int), cs)
  if digits = [] then none
  else if !(digits.all isDecDigit) then none
  else
    let mag : Int := digits.foldl (fun a c => a * 10 + ((c.toNat : Int) - 48)) 0
    let v := sign * mag
    if v < -(2 ^ 63) ∨ 2 ^ 63 - 1 < v then none else some v

/-- `strings.Split` on a single-character separator, over character lists:
`splitCharAux sep cs acc` splits `cs`, with `acc` the (reversed) characters
of the current field. -/
def splitCharAux (sep : Char) : List Char → List Char → List (List Char)
  | [], acc => [acc.reverse]
  | c :: cs, acc =>
    if c = sep then acc.reverse :: splitCharAux sep cs []
    else splitCharAux sep cs (c :: acc)

/-- `strings.Split(s, "/")` (part_000, line 55): the fields of `s` between
`/` separators, empty fields included. -/
def goSplitSlash (s : String) : List String :=
  (splitCharAux '/' s.data []).map (fun cs => String.mk cs)

/-- An HTTP response: status code and body, as produced by the handlers. -/
structure Resp where
  status : Nat
  body : String
deriving DecidableEq

/-- The HTTP methods distinguished by the handlers' `switch r.Method`. -/
inductive Method where
  | mget
  | mpost
  | mother
deriving DecidableEq

/-- The global mutable state of the concurrent server (part_000, lines
26-31): the `hashes` map (association list, most recent binding first, a
missing key reading as Go's zero value `""`), `jobCounter`, the published
`hashStats` snapshot, the deferred-but-not-yet-completed `hashAndEncode`
invocations, and the `stopping` flag. -/
structure ServerState where
  hashes : List (Int × String)
  jobCounter : Int
  stats : HashStat
  pending : List (Int × String)
  stopping : Bool
deriving DecidableEq

/-- The server state after `main` initialises `hashStats` (line 144) and
before any request: empty map, counter `0`, snapshot `{0, 0}`, not
stopping. -/
def initState : ServerState :=
  { hashes := [], jobCounter := 0, stats := { total := 0, average := 0 },
    pending := [], stopping := false }

/-- Reading `hashes[k]` in Go: the stored string, or the zero value `""`
when the key is absent. -/
def mapRead (m : List (Int × String)) (k : Int) : String :=
  (m.lookup k).getD ("")

/-- `HashHandler.ServeHTTP` (part_000, lines 40-106).  Arguments beyond the
state: the request method, the URL path, the `password` form value (Go's
`PostFormValue` yields `""` when the field is absent), and the measured
request duration in nanoseconds (an environment-provided quantity).  Returns
the updated state and the response. -/
def hashServeHTTP (s : ServerState) (m : Method) (path : String)
    (formValue : String) (durNano : Int) : ServerState × Resp :=
  if s.stopping then
    (s, { status := 503, body := "Server is stopping." })
  else
    match m with
    | Method.mget =>
      let urlParts := goSplitSlash path
      if 3 ≤ urlParts.length ∧ urlParts.getD 2 ("") ≠ "" then
        match goAtoi (urlParts.getD 2 ("")) with
        | none => (s, { status := 400, body := "Unable to process the supplied job id." })
        | some jid =>
          let jidHash := mapRead s.hashes (int32Wrap jid)
          if jidHash = "" then
            (s, { status := 404, body := "Unable to find the specified job id." })
          else
            (s, { status := 200, body := jidHash })
      else
        (s, { status := 400, body := "No job id specified." })
    | Method.mpost =>
      if formValue ≠ "" then
        let jid := int32Wrap (s.jobCounter + 1)
        ({ s with jobCounter := jid,
                  stats := updateStats s.stats durNano,
                  pending := s.pending ++ [(jid, formValue)] },
         { status := 200, body := toString jid })
      else
        (s, { status := 400, body := "A value must be submitted." })
    | Method.mother =>
      (s, { status := 405, body := "Only POST and GET requests are supported." })

/-- `json.Marshal` applied to a `HashStat` (part_000, line 122); the marshal
of this struct cannot fail, so the 500 branch is dead code. -/
def hashStatJson (hs : HashStat) : String :=
  "\x7b\"total\":" ++ toString hs.total ++ ",\"average\":" ++ toString hs.average ++ "\x7d"

/-- `StatsHandler.ServeHTTP` (part_000, lines 108-134). -/
def statsServeHTTP (s : ServerState) (m : Method) : ServerState × Resp :=
  if s.stopping then
    (s, { status := 503, body := "Server is stopping." })
  else
    match m with
    | Method.mget => (s, { status := 200, body := hashStatJson s.stats })
    | _ => (s, { status := 405, body := "Only GET requests are supported." })

/-- Events of a server execution: a request to the hash endpoint, a request
to the stats endpoint, the termination signal (the goroutine at part_000
lines 153-161 performing `atomic.StoreInt32(&stopping, 1)`), and the
execution of the oldest deferred `hashAndEncode` invocation (part_000 lines
195-210: after its five-second sleep it computes the digest and stores it in
the `hashes` map). -/
inductive Ev where
  | hashReq (m : Method) (path : String) (formValue : String) (durNano : Int)
  | statsReq (m : Method)
  | sigterm
  | runJob
deriving DecidableEq

/-- One step of the server: dispatch an event against the current state.
Requests produce a response; `sigterm` and `runJob` produce none. -/
def step (digest : String → String) (s : ServerState) (e : Ev) :
    ServerState × Option Resp :=
  match e with
  | Ev.hashReq m path formValue durNano =>
    let (s1, r) := hashServeHTTP s m path formValue durNano
    (s1, some r)
  | Ev.statsReq m =>
    let (s1, r) := statsServeHTTP s m
    (s1, some r)
  | Ev.sigterm => ({ s with stopping := true }, none)
  | Ev.runJob =>
    match s.pending with
    | [] => (s, none)
    | (jid, data) :: rest =>
      ({ s with hashes := (jid, digest data) :: s.hashes, pending := rest }, none)

/-- Run a list of events, returning the final state. -/
def run (digest : String → String) (s : ServerState) (es : List Ev) : ServerState :=
  es.foldl (fun st e => (step digest st e).1) s

/-- Run a list of events, returning the final state and the list of
responses (one entry per event). -/
def runResps (digest : String → String) (s : ServerState) :
    List Ev → ServerState × List (Option Resp)
  | [] => (s, [])
  | e :: es =>
    let p := step digest s e
    let q := runResps digest p.1 es
    (q.1, p.2 :: q.2)

/-- The event of one submission: a POST to the hash endpoint carrying form
value `v`; the measured duration is irrelevant to job ids and totals and is
fixed at `0` nanoseconds here. -/
def postEv (v : String) : Ev :=
  Ev.hashReq Method.mpost ("/hash") v 0

/-- Sequential submissions of the values `vs`, in order. -/
def postEvents (vs : List String) : List Ev :=
  vs.map postEv

/-!
Pointer-level model of the `hashStats` cell for `updateStats` (part_000,
lines 213-221).  `hashStats` is an `atomic.Value` holding a `*HashStat`;
`updateStats` loads the published pointer, performs
`atomic.AddInt32(&hs.Total, 1)` — which mutates the `Total` field of the
*published* snapshot in place — computes the new average from the loaded
snapshot's `Average`, and stores a pointer to a freshly allocated
`HashStat`.  To make the in-place mutation observable, every `HashStat`
ever allocated is kept in `cells` (in allocation order) and `published` is
the index of the cell currently held by the `atomic.Value`.
-/

/-- The heap of `HashStat` cells plus the pointer published in the
`hashStats` atomic value. -/
structure StatsWorld where
  cells : List HashStat
  published : Nat
deriving DecidableEq

/-- The stats world after `main`'s initialisation (line 144): one allocated
snapshot `{0, 0}`, published. -/
def initStatsWorld : StatsWorld :=
  { cells := [{ total := 0, average := 0 }], published := 0 }

/-- `updateStats` at the pointer level (part_000, lines 213-221):
`hs := hashStats.Load()`; `num := atomic.AddInt32(&hs.Total, 1)` mutates the
loaded (= currently published) cell in place; the new average is computed
from `hs.Average` and `num`; `hashStats.Store(&HashStat{num, avg})`
publishes a freshly allocated cell. -/
def recordPtr (w : StatsWorld) (durationNano : Int) : StatsWorld :=
  let hs := w.cells.getD w.published { total := 0, average := 0 }
  let num : Int := int32Wrap (hs.total + 1)
  let cells1 := w.cells.set w.published { total := num, average := hs.average }
  let durationMilli : ℚ := (durationNano : ℚ) / 1000000
  let avg : ℚ := (hs.average * ((num : ℚ) - 1) + durationMilli) / (num : ℚ)
  { cells := cells1 ++ [{ total := num, average := avg }],
    published := cells1.length }

/-!
Interleaved execution of concurrent `updateStats` calls.  The body of
`updateStats` decomposes into three micro-steps separated by the memory
operations on the shared `hashStats` cell:
  pc 0: `hs := hashStats.Load()`                  (read the published pointer)
  pc 1: `num := atomic.AddInt32(&hs.Total, 1)`    (atomic increment of the
        loaded cell's `Total` field)
  pc 2: compute `avg` from `hs.Average` and `num`, then
        `hashStats.Store(&HashStat{num, avg})`    (publish a fresh cell)
A schedule is a list of thread indices; each entry runs the next micro-step
of that thread.
-/

/-- Per-thread state of one in-flight `updateStats` call: program counter,
the loaded pointer (cell index), the `num` returned by the atomic add, and
the call's `durationNano` argument. -/
structure RecThread where
  pc : Nat
  loadedIdx : Nat
  num : Int
  durationNano : Int
deriving DecidableEq

/-- Shared memory plus the thread pool for interleaved `updateStats`
calls. -/
structure ConcStats where
  cells : List HashStat
  published : Nat
  threads : List RecThread
deriving DecidableEq

/-- Execute the next micro-step of thread `i` (no-op for an out-of-range
index or a finished thread). -/
def threadStep (w : ConcStats) (i : Nat) : ConcStats :=
  match w.threads.get? i with
  | none => w
  | some th =>
    if th.pc = 0 then
      { w with threads := w.threads.set i { th with loadedIdx := w.published, pc := 1 } }
    else if th.pc = 1 then
      let hs := w.cells.getD th.loadedIdx { total := 0, average := 0 }
      let num := int32Wrap (hs.total + 1)
      { w with cells := w.cells.set th.loadedIdx { total := num, average := hs.average },
               threads := w.threads.set i { th with num := num, pc := 2 } }
    else if th.pc = 2 then
      let hs := w.cells.getD th.loadedIdx { total := 0, average := 0 }
      let durationMilli : ℚ := (th.durationNano : ℚ) / 1000000
      let avg : ℚ := (hs.average * ((th.num : ℚ) - 1) + durationMilli) / ((th.num : ℚ))
      { w with cells := w.cells ++ [{ total := th.num, average := avg }],
               published := w.cells.length,
               threads := w.threads.set i { th with pc := 3 } }
    else w

/-- Run a schedule (list of thread indices) of micro-steps. -/
def runSched (w : ConcStats) (sched : List Nat) : ConcStats :=
  sched.foldl threadStep w

/-- The snapshot currently published in an interleaved execution. -/
def publishedStat (w : ConcStats) : HashStat :=
  w.cells.getD w.published { total := 0, average := 0 }

/-- A fresh `updateStats` call (about to execute its load) with the given
duration argument. -/
def mkRecThread (durationNano : Int) : RecThread :=
  { pc := 0, loadedIdx := 0, num := 0, durationNano := durationNano }

/-- Two concurrent `updateStats` calls (durations 1 ms and 3 ms) against the
freshly initialised stats cell. -/
def twoRecordsWorld : ConcStats :=
  { cells := [{ total := 0, average := 0 }], published := 0,
    threads := [mkRecThread 1000000, mkRecThread 3000000] }

/-!
The digest pipeline.  Both servers compute
`base64.StdEncoding.EncodeToString(sha512(data))`; SHA-512, the base64
encoder and Go's `[]byte(data)` UTF-8 conversion live in the Go standard
library (external collaborators per the specification), so they are
parameters of the embedding.
-/

/-- `encryptAndEncode` (password_server.go, lines 55-63): write the bytes of
`data` into a fresh SHA-512 state and base64-encode the sum. -/
def encryptAndEncode (sha512Sum : List Nat → List Nat)
    (base64StdEncode : List Nat → String) (goBytes : String → List Nat)
    (data : String) : String :=
  base64StdEncode (sha512Sum (goBytes data))

/-- The digest value stored by `hashAndEncode` (part_000, lines 195-210) for
input `data`: write the bytes of `data` into a fresh SHA-512 state and
base64-encode the sum (the surrounding locking, sleeping and map write are
modelled by `Ev.runJob`). -/
def hashAndEncodeDigest (sha512Sum : List Nat → List Nat)
    (base64StdEncode : List Nat → String) (goBytes : String → List Nat)
    (data : String) : String :=
  base64StdEncode (sha512Sum (goBytes data))

/-!
The execution path of the POST branch of `HashHandler.ServeHTTP` (part_000,
lines 80-100) at the granularity of one goroutine.  Go's `defer` runs the
deferred call on the *same* goroutine when the surrounding function returns,
so with `defer hashAndEncode(jid, p)` (line 89) the handler goroutine
performs, in order: write the 200 header, write the job id body (into the
response buffer), call `updateStats`, and then — at function exit, still
before `net/http` flushes the response — sleep five seconds, compute the
digest and store it.  The request path of the source contains no `go`
statement, so no other goroutine is spawned.
-/

/-- The primitive actions a goroutine can perform while completing a
submission. -/
inductive HAction where
  | writeStatusOK
  | writeJobIdBody
  | recordStats
  | sleepSeconds (n : Nat)
  | computeDigest (v : String)
  | storeDigest (v : String)
deriving DecidableEq

/-- `hashAndEncode` (part_000, lines 195-210) as its action sequence: sleep
five seconds, compute the SHA-512/base64 digest, store it in the map. -/
def hashAndEncodeActions (v : String) : List HAction :=
  [HAction.sleepSeconds 5, HAction.computeDigest v, HAction.storeDigest v]

/-- The ordered actions performed by the handler's own goroutine for an
accepted (non-empty) submission of `v` (part_000, lines 80-100, with Go
`defer` semantics: the deferred `hashAndEncode` runs at function exit on
this same goroutine). -/
def handlerGoroutinePost (v : String) : List HAction :=
  [HAction.writeStatusOK, HAction.writeJobIdBody, HAction.recordStats]
    ++ hashAndEncodeActions v

/-- The goroutines spawned by the POST branch of `HashHandler.ServeHTTP`:
the source contains no `go` statement on the request path, so none. -/
def spawnedGoroutinesPost (_v : String) : List (List HAction) :=
  []

/-!
Specification-side definition of the running average, for comparison with
`updateStats`.  Clause from §4.2/§8 of the specification: the published
average after recording `L1..Ln` is the incremental mean
`avg_i = avg_(i-1) + (L_i - avg_(i-1)) / i`, `avg_0 = 0`.
-/

/-- The incremental mean of the specification, continued from value `avg`
after `i` latencies have already been recorded. -/
def specIncMeanAux (avg : ℚ) (i : Nat) : List ℚ → ℚ
  | [] => avg
  | l :: ls => specIncMeanAux (avg + (l - avg) / ((i : ℚ) + 1)) (i + 1) ls

/-- The incremental mean `avg_n` of the specification for latencies
`L1..Ln` (in milliseconds). -/
def specIncMean (ls : List ℚ) : ℚ :=
  specIncMeanAux 0 0 ls

/-- Milliseconds corresponding to a duration in nanoseconds, as a rational
(`float64(durationNano) / 1e6` in the source). -/
def nanoToMilli (d : Int) : ℚ :=
  (d : ℚ) / 1000000

/-! ### General lemmas about the embedding -/

theorem int32Wrap_eq_self {n : Int} (h1 : -(2 ^ 31) ≤ n) (h2 : n < 2 ^ 31) :
    int32Wrap n = n := by
  unfold int32Wrap
  omega

theorem int32Wrap_add (x k : Int) : int32Wrap (int32Wrap x + k) = int32Wrap (x + k) := by
  unfold int32Wrap
  omega

/-- Neither handler ever changes the `stopping` flag. -/
theorem hashServeHTTP_stopping (s : ServerState) (m : Method) (path fv : String)
    (d : Int) : (hashServeHTTP s m path fv d).1.stopping = s.stopping := by
  unfold hashServeHTTP
  repeat' first
    | rfl
    | (dsimp only)
    | split

theorem statsServeHTTP_stopping (s : ServerState) (m : Method) :
    (statsServeHTTP s m).1.stopping = s.stopping := by
  unfold statsServeHTTP
  repeat' split
  all_goals rfl

/-! ### C5: empty-input rejection -/

/-- C5 counterexample: the claim says an empty submission is always rejected
with status 400, but when the server is draining the handler answers 503
(the `stopping` check precedes the form-value check), so the claim as
universally stated is false. -/
theorem C5_counterexample :
    (hashServeHTTP { initState with stopping := true } Method.mpost ("/hash") ("") 0).2.status
        = 503 ∧
    (503 : Nat) ≠ 400 := by
  decide

/-- C5 (amended): while the server is accepting, a submission whose value is
empty or absent is rejected with status 400; while draining it is rejected
with status 503.  In both cases the handler returns the state unchanged: no
JobId is allocated, the job counter does not advance, the job store is
untouched and no completion work is scheduled. -/
theorem C5_empty_submission_rejected (s : ServerState) (path fv : String) (d : Int)
    (hfv : fv = "") :
    (s.stopping = false →
      hashServeHTTP s Method.mpost path fv d
        = (s, { status := 400, body := "A value must be submitted." })) ∧
    (s.stopping = true →
      hashServeHTTP s Method.mpost path fv d
        = (s, { status := 503, body := "Server is stopping." })) := by
  subst hfv
  constructor
  · intro hstop
    simp [hashServeHTTP, hstop]
  · intro hstop
    simp [hashServeHTTP, hstop]

/-- C5 witness: the two hypotheses discharged at a concrete input. -/
theorem C5_witness :
    hashServeHTTP initState Method.mpost ("/hash") ("") 0
      = (initState, { status := 400, body := "A value must be submitted." }) :=
  (C5_empty_submission_rejected initState ("/hash") ("") 0 rfl).1 rfl

/-! ### C6: shutdown flag and uniform 503 rejection -/

/-- C6: the `stopping` flag never reverts — after any step it is set exactly
when it was already set or the step is the termination signal — and while it
is set every request to either endpoint (any method) is answered with 503
and the state is left completely unchanged, so no work is performed and
nothing is mutated before the rejection. -/
theorem C6_shutdown_monotone_rejects (digest : String → String)
    (s : ServerState) (e : Ev) :
    ((step digest s e).1.stopping = true ↔ (s.stopping = true ∨ e = Ev.sigterm)) ∧
    (s.stopping = true →
      (∀ m path fv d, e = Ev.hashReq m path fv d →
        step digest s e = (s, some { status := 503, body := "Server is stopping." })) ∧
      (∀ m, e = Ev.statsReq m →
        step digest s e = (s, some { status := 503, body := "Server is stopping." }))) := by
  constructor
  · cases e with
    | hashReq m path fv d =>
      simp only [step, hashServeHTTP_stopping]
      simp
    | statsReq m =>
      simp only [step, statsServeHTTP_stopping]
      simp
    | sigterm => simp [step]
    | runJob =>
      cases hp : s.pending with
      | nil => simp [step, hp]
      | cons j rest => simp [step, hp]
  · intro hstop
    constructor
    · rintro m path fv d rfl
      simp [step, hashServeHTTP, hstop]
    · rintro m rfl
      simp [step, statsServeHTTP, hstop]

/-- C6 witness: a draining state rejects a stats request with 503 and leaves
the state unchanged. -/
theorem C6_witness :
    step (fun v => v) { initState with stopping := true } (Ev.statsReq Method.mget)
      = ({ initState with stopping := true },
         some { status := 503, body := "Server is stopping." }) :=
  ((C6_shutdown_monotone_rejects (fun v => v) { initState with stopping := true }
      (Ev.statsReq Method.mget)).2 rfl).2 Method.mget rfl

/-! ### C7: retrieval status codes -/

/-- C7 counterexample: the identifier `4294967297` (= 2^32 + 1) parses, and
the state has no stored result for it (its only binding is for job id 1),
yet the handler answers 200 with job 1's digest, because the parsed `int` is
truncated to `int32` (`hashes[int32(jid)]`, part_000 line 66) before the
lookup; the claim requires 404 for a parseable identifier with no stored
result. -/
theorem C7_counterexample :
    goAtoi ("4294967297") = some 4294967297 ∧
    List.lookup (4294967297 : Int) ([((1 : Int), "d")]) = none ∧
    (hashServeHTTP { initState with hashes := [(1, "d")] } Method.mget
        ("/hash/4294967297") ("") 0).2
      = { status := 200, body := "d" } ∧
    (200 : Nat) ≠ 404 := by
  decide

/-- C7 (amended): while accepting, a retrieval whose identifier is missing
or does not parse as an integer (Go `strconv.Atoi`) is answered with 400; a
parseable identifier is looked up after truncation to `int32`, and the
handler answers 404 when the store has no result under the truncated key
(in particular for any in-range identifier that is pending or was never
submitted) and 200 with the stored digest otherwise.  The state is never
changed. -/
theorem C7_retrieval_statuses (s : ServerState) (path fv : String) (d : Int)
    (hstop : s.stopping = false) :
    (¬(3 ≤ (goSplitSlash path).length ∧ (goSplitSlash path).getD 2 ("") ≠ "") →
      hashServeHTTP s Method.mget path fv d
        = (s, { status := 400, body := "No job id specified." })) ∧
    ((3 ≤ (goSplitSlash path).length ∧ (goSplitSlash path).getD 2 ("") ≠ "") →
      goAtoi ((goSplitSlash path).getD 2 ("")) = none →
      hashServeHTTP s Method.mget path fv d
        = (s, { status := 400, body := "Unable to process the supplied job id." })) ∧
    (∀ jid, (3 ≤ (goSplitSlash path).length ∧ (goSplitSlash path).getD 2 ("") ≠ "") →
      goAtoi ((goSplitSlash path).getD 2 ("")) = some jid →
      mapRead s.hashes (int32Wrap jid) = "" →
      hashServeHTTP s Method.mget path fv d
        = (s, { status := 404, body := "Unable to find the specified job id." })) ∧
    (∀ jid, (3 ≤ (goSplitSlash path).length ∧ (goSplitSlash path).getD 2 ("") ≠ "") →
      goAtoi ((goSplitSlash path).getD 2 ("")) = some jid →
      mapRead s.hashes (int32Wrap jid) ≠ "" →
      hashServeHTTP s Method.mget path fv d
        = (s, { status := 200, body := mapRead s.hashes (int32Wrap jid) })) := by
  refine ⟨?_, ?_, ?_, ?_⟩
  · intro hcond
    unfold hashServeHTTP
    simp only [hstop, Bool.false_eq_true, if_false]
    rw [if_neg hcond]
  · intro hcond hparse
    unfold hashServeHTTP
    simp only [hstop, Bool.false_eq_true, if_false]
    rw [if_pos hcond]
    simp only [hparse]
  · intro jid hcond hparse hmiss
    unfold hashServeHTTP
    simp only [hstop, Bool.false_eq_true, if_false]
    rw [if_pos hcond]
    simp only [hparse]
    rw [if_pos hmiss]
  · intro jid hcond hparse hhit
    unfold hashServeHTTP
    simp only [hstop, Bool.false_eq_true, if_false]
    rw [if_pos hcond]
    simp only [hparse]
    rw [if_neg hhit]

/-- C7 witness: the specification's concrete scenario — retrieving the
never-submitted id `999999` from the initial state yields 404 (and, via the
counterexample-free branches, `/hash/abc` style requests are covered by the
400 clauses). -/
theorem C7_witness :
    hashServeHTTP initState Method.mget ("/hash/999999") ("") 0
      = (initState, { status := 404, body := "Unable to find the specified job id." }) :=
  (C7_retrieval_statuses initState ("/hash/999999") ("") 0 rfl).2.2.1 999999
    (by decide) (by decide) (by decide)

/-! ### C2: job-id allocation -/

/-- The responses to a block of sequential accepted submissions: the `k`-th
submission (0-based `i`) is answered 200 with body the decimal
representation of `int32Wrap (jobCounter + i + 1)`. -/
theorem runResps_posts (digest : String → String) (vs : List String) :
    ∀ (s : ServerState), s.stopping = false → (∀ v ∈ vs, v ≠ "") →
    (runResps digest s (postEvents vs)).2
      = (List.range vs.length).map
          (fun i => some { status := 200,
                           body := toString (int32Wrap (s.jobCounter + (i : Int) + 1)) }) := by
  induction vs with
  | nil =>
    intro s _ _
    simp [postEvents, runResps]
  | cons v vs ih =>
    intro s hstop hne
    have hv : v ≠ "" := hne v (by simp)
    have hvs : ∀ w ∈ vs, w ≠ "" := fun w hw => hne w (by simp [hw])
    have hstep : step digest s (postEv v)
        = ({ s with jobCounter := int32Wrap (s.jobCounter + 1),
                    stats := updateStats s.stats 0,
                    pending := s.pending ++ [(int32Wrap (s.jobCounter + 1), v)] },
           some { status := 200, body := toString (int32Wrap (s.jobCounter + 1)) }) := by
      simp [step, postEv, hashServeHTTP, hstop, hv]
    simp only [postEvents, List.map_cons, runResps, hstep]
    rw [show List.map postEv vs = postEvents vs from rfl,
      ih { s with jobCounter := int32Wrap (s.jobCounter + 1),
                  stats := updateStats s.stats 0,
                  pending := s.pending ++ [(int32Wrap (s.jobCounter + 1), v)] } hstop hvs]
    rw [List.length_cons, List.range_succ_eq_map, List.map_cons, List.map_map]
    refine congrArg₂ _ ?_ ?_
    · exact congrArg (fun z : Int => some (⟨200, toString (int32Wrap z)⟩ : Resp))
        (by push_cast; ring)
    · refine List.map_congr_left fun i _ => ?_
      show some (⟨200, toString (int32Wrap (int32Wrap (s.jobCounter + 1) + (i : Int) + 1))⟩ : Resp) = _
      rw [add_assoc (int32Wrap (s.jobCounter + 1)) (i : Int) 1, int32Wrap_add]
      simp only [Function.comp_apply]
      exact congrArg (fun z : Int => some (⟨200, toString (int32Wrap z)⟩ : Resp))
        (by push_cast; ring)

/-- C2 (amended): as long as at most `2^31 - 1` submissions are made over
the process lifetime, the JobIds returned to callers of the submission
endpoint are exactly `1, 2, 3, …` in submission order — pairwise distinct,
strictly increasing, starting at 1, never reused; in particular ten
sequential submissions of non-empty values receive ids 1..10 in order.
Beyond `2^31 - 1` submissions the `int32` counter overflows (see the
counterexample), so the lifetime bound is necessary. -/
theorem C2_sequential_ids (digest : String → String) (vs : List String)
    (hne : ∀ v ∈ vs, v ≠ "") (hlen : vs.length ≤ 2 ^ 31 - 1) :
    (runResps digest initState (postEvents vs)).2
      = (List.range vs.length).map
          (fun i => some { status := 200, body := toString ((i : Int) + 1) }) := by
  rw [runResps_posts digest vs initState rfl hne]
  refine List.map_congr_left ?_
  intro i hi
  have hi2 : i < vs.length := List.mem_range.mp hi
  have hn : i < 2 ^ 31 - 1 := lt_of_lt_of_le hi2 hlen
  have hw : int32Wrap ((initState.jobCounter : Int) + (i : Int) + 1) = (i : Int) + 1 := by
    simp only [initState]
    rw [zero_add]
    exact int32Wrap_eq_self (by omega) (by omega)
  rw [hw]

/-- C2 counterexample: the claim quantifies over every sequence of
submissions in the process lifetime, but the job counter is an `int32`
(`atomic.AddInt32(&jobCounter, 1)`, part_000 line 86), so on the
`2^31`-th submission the returned id wraps to `-2^31`, which is smaller
than the previous id `2^31 - 1`: the ids are not strictly increasing. -/
theorem C2_counterexample :
    ((runResps (fun v => v) initState (postEvents (List.replicate (2 ^ 31) ("x")))).2.get?
        (2 ^ 31 - 1) = some (some { status := 200, body := toString (-(2 ^ 31) : Int) })) ∧
    ((runResps (fun v => v) initState (postEvents (List.replicate (2 ^ 31) ("x")))).2.get?
        (2 ^ 31 - 2) = some (some { status := 200, body := toString ((2 ^ 31 - 1 : Int)) })) ∧
    (-(2 ^ 31) : Int) < 2 ^ 31 - 1 := by
  have h := runResps_posts (fun v => v) (List.replicate (2 ^ 31) ("x")) initState rfl
    (fun w hw => by rw [List.eq_of_mem_replicate hw]; decide)
  refine ⟨?_, ?_, by norm_num⟩ <;> rw [h] <;> rw [List.get?_map, List.length_replicate]
  · rw [List.get?_range (by norm_num)]
    show some (some (⟨200,
        toString (int32Wrap (initState.jobCounter + ((2 ^ 31 - 1 : Nat) : Int) + 1))⟩ : Resp)) = _
    exact congrArg (fun z : Int => some (some (⟨200, toString z⟩ : Resp)))
      (by norm_num [initState, int32Wrap])
  · rw [List.get?_range (by norm_num)]
    show some (some (⟨200,
        toString (int32Wrap (initState.jobCounter + ((2 ^ 31 - 2 : Nat) : Int) + 1))⟩ : Resp)) = _
    exact congrArg (fun z : Int => some (some (⟨200, toString z⟩ : Resp)))
      (by norm_num [initState, int32Wrap])

/-- C2 witness: ten sequential submissions of distinct non-empty values
from the initial state receive exactly the ids 1..10, in that order. -/
theorem C2_witness :
    (runResps (fun v => v) initState
        (postEvents ["a", "b", "c", "d", "e", "f", "g", "h", "i", "j"])).2
      = [some { status := 200, body := "1" }, some { status := 200, body := "2" },
         some { status := 200, body := "3" }, some { status := 200, body := "4" },
         some { status := 200, body := "5" }, some { status := 200, body := "6" },
         some { status := 200, body := "7" }, some { status := 200, body := "8" },
         some { status := 200, body := "9" }, some { status := 200, body := "10" }] := by
  rw [C2_sequential_ids (fun v => v) ["a", "b", "c", "d", "e", "f", "g", "h", "i", "j"]
    (by decide) (by norm_num)]
  decide

/-! ### C1: what the published total counts -/

/-- Effect of a block of sequential accepted submissions on the rest of the
state: the job store is untouched, the server keeps accepting, the pending
queue grows by one deferred job per submission, and the published total
advances by one per submission (as a wrapping `int32`), because
`updateStats` is called synchronously in the handler. -/
theorem run_posts (digest : String → String) (vs : List String) :
    ∀ (s : ServerState), s.stopping = false → (∀ v ∈ vs, v ≠ "") →
    (run digest s (postEvents vs)).hashes = s.hashes ∧
    (run digest s (postEvents vs)).stopping = false ∧
    (run digest s (postEvents vs)).pending.length = s.pending.length + vs.length ∧
    ∀ t : Int, s.stats.total = int32Wrap t →
      (run digest s (postEvents vs)).stats.total = int32Wrap (t + vs.length) := by
  induction vs with
  | nil =>
    intro s hstop _
    refine ⟨rfl, hstop, by simp [postEvents, run], ?_⟩
    intro t ht
    simpa [postEvents, run] using ht
  | cons v vs ih =>
    intro s hstop hne
    have hv : v ≠ "" := hne v (by simp)
    have hvs : ∀ w ∈ vs, w ≠ "" := fun w hw => hne w (by simp [hw])
    have hrun : run digest s (postEvents (v :: vs))
        = run digest { s with jobCounter := int32Wrap (s.jobCounter + 1),
                              stats := updateStats s.stats 0,
                              pending := s.pending ++ [(int32Wrap (s.jobCounter + 1), v)] }
            (postEvents vs) := by
      simp only [postEvents, List.map_cons, run, List.foldl_cons]
      refine congrArg₂ _ ?_ rfl
      simp [step, postEv, hashServeHTTP, hstop, hv]
    rw [hrun]
    obtain ⟨h1, h2, h3, h4⟩ :=
      ih { s with jobCounter := int32Wrap (s.jobCounter + 1),
                  stats := updateStats s.stats 0,
                  pending := s.pending ++ [(int32Wrap (s.jobCounter + 1), v)] } hstop hvs
    refine ⟨h1, h2, ?_, ?_⟩
    · rw [h3]
      simp only [List.length_append, List.length_cons, List.length_nil]
      omega
    · intro t ht
      have htot : (updateStats s.stats 0).total = int32Wrap (t + 1) := by
        show int32Wrap (s.stats.total + 1) = int32Wrap (t + 1)
        rw [ht, int32Wrap_add]
      rw [h4 (t + 1) htot]
      refine congrArg int32Wrap ?_
      simp only [List.length_cons]
      push_cast
      ring

/-- Effect of running `j` deferred `hashAndEncode` invocations: each one
pops a pending job, stores its digest (one new map entry), and leaves the
published stats untouched. -/
theorem run_jobs (digest : String → String) (j : Nat) :
    ∀ (s : ServerState), j ≤ s.pending.length →
    (run digest s (List.replicate j Ev.runJob)).hashes.length = s.hashes.length + j ∧
    (run digest s (List.replicate j Ev.runJob)).stats = s.stats := by
  induction j with
  | zero => intro s _; exact ⟨rfl, rfl⟩
  | succ j ih =>
    intro s hj
    cases hp : s.pending with
    | nil => rw [hp] at hj; exact absurd hj (by simp)
    | cons job rest =>
      have hrun : run digest s (List.replicate (j + 1) Ev.runJob)
          = run digest { s with hashes := (job.1, digest job.2) :: s.hashes,
                                pending := rest } (List.replicate j Ev.runJob) := by
        rw [List.replicate_succ]
        simp only [run, List.foldl_cons]
        refine congrArg₂ _ ?_ rfl
        simp [step, hp]
      rw [hrun]
      have hj2 : j ≤ rest.length := by
        rw [hp] at hj
        simpa using Nat.lt_succ_iff.mp (Nat.lt_of_lt_of_le (Nat.lt_succ_of_le le_rfl) hj)
      obtain ⟨h1, h2⟩ :=
        ih { s with hashes := (job.1, digest job.2) :: s.hashes,
                    pending := rest } hj2
      refine ⟨?_, h2⟩
      rw [h1]
      simp only [List.length_cons]
      omega

/-- C1 counterexample: after one accepted submission and before its
deferred `hashAndEncode` runs, the published snapshot's total is already 1
while zero digest computations have completed (the job store is empty),
because `updateStats` is called synchronously in the handler (part_000 line
96) and the digest is stored only later (line 207); so the published total
does not equal the number of completed digest computations at every point. -/
theorem C1_counterexample :
    (run (fun v => v) initState [postEv ("angryMonkey")]).stats.total = 1 ∧
    (run (fun v => v) initState [postEv ("angryMonkey")]).hashes = [] := by
  decide

/-- C1 (amended): the published total counts accepted submissions, not
completed digest computations: after `k` accepted submissions of which only
`j ≤ k` deferred digest computations have completed, the published total is
`int32Wrap k` (i.e. `k` for every realistic lifetime) while exactly `j`
digests are stored.  The total therefore equals the completed count only
once every deferred job has run. -/
theorem C1_total_counts_submissions (digest : String → String) (vs : List String)
    (j : Nat) (hne : ∀ v ∈ vs, v ≠ "") (hj : j ≤ vs.length) :
    (run digest initState (postEvents vs ++ List.replicate j Ev.runJob)).stats.total
        = int32Wrap vs.length ∧
    (run digest initState (postEvents vs ++ List.replicate j Ev.runJob)).hashes.length
        = j := by
  have hsplit : run digest initState (postEvents vs ++ List.replicate j Ev.runJob)
      = run digest (run digest initState (postEvents vs)) (List.replicate j Ev.runJob) := by
    simp [run, List.foldl_append]
  obtain ⟨h1, _h2, h3, h4⟩ := run_posts digest vs initState rfl hne
  have ht : (run digest initState (postEvents vs)).stats.total
      = int32Wrap ((0 : Int) + vs.length) := h4 0 (by decide)
  have hjle : j ≤ (run digest initState (postEvents vs)).pending.length := by
    rw [h3]
    simpa [initState] using hj
  obtain ⟨h5, h6⟩ := run_jobs digest j (run digest initState (postEvents vs)) hjle
  rw [hsplit]
  constructor
  · rw [h6, ht]
    exact congrArg int32Wrap (by ring)
  · rw [h5, h1]
    simp [initState]

/-- C1 witness: two accepted submissions and one completed digest job —
published total 2, one stored digest. -/
theorem C1_witness :
    (run (fun v => v) initState (postEvents ["a", "b"] ++ List.replicate 1 Ev.runJob)).stats.total
        = int32Wrap (["a", "b"] : List String).length ∧
    (run (fun v => v) initState
        (postEvents ["a", "b"] ++ List.replicate 1 Ev.runJob)).hashes.length = 1 :=
  C1_total_counts_submissions (fun v => v) ["a", "b"] 1 (by decide) (by decide)

/-! ### C3: the running average -/

theorem recordAll_append (hs : HashStat) (xs ys : List Int) :
    recordAll hs (xs ++ ys) = recordAll (recordAll hs xs) ys := by
  simp [recordAll, List.foldl_append]

theorem specIncMeanAux_append (xs ys : List ℚ) :
    ∀ (a : ℚ) (i : Nat), specIncMeanAux a i (xs ++ ys)
      = specIncMeanAux (specIncMeanAux a i xs) (i + xs.length) ys := by
  induction xs with
  | nil => intro a i; simp [specIncMeanAux]
  | cons x xs ih =>
    intro a i
    simp only [List.cons_append, specIncMeanAux, List.append_eq]
    rw [ih]
    have hn : i + 1 + xs.length = i + (x :: xs).length := by
      simp only [List.length_cons]
      omega
    rw [hn]

theorem specIncMeanAux_one (k : Nat) :
    ∀ i : Nat, specIncMeanAux 1 i (List.replicate k 1) = 1 := by
  induction k with
  | zero => intro i; rfl
  | succ k ih =>
    intro i
    rw [List.replicate_succ]
    show specIncMeanAux (1 + (1 - 1) / ((i : ℚ) + 1)) (i + 1) (List.replicate k 1) = 1
    rw [show (1 : ℚ) + (1 - 1) / ((i : ℚ) + 1) = 1 by ring]
    exact ih (i + 1)

/-- As long as the `int32` total does not overflow, the sequential
`updateStats` fold tracks the specification's incremental mean exactly (in
exact arithmetic), and the total counts the records. -/
theorem recordAll_spec (ds : List Int) :
    ∀ (hs : HashStat) (i : Nat), hs.total = (i : Int) →
      (i : Int) + ds.length ≤ 2 ^ 31 - 1 →
      (recordAll hs ds).total = (i : Int) + ds.length ∧
      (recordAll hs ds).average = specIncMeanAux hs.average i (ds.map nanoToMilli) := by
  induction ds with
  | nil =>
    intro hs i h1 _
    constructor
    · simpa [recordAll] using h1
    · simp [recordAll, specIncMeanAux]
  | cons d ds ih =>
    intro hs i h1 h2
    push_cast [List.length_cons] at h2
    have hwrap : int32Wrap (hs.total + 1) = (i : Int) + 1 := by
      rw [h1]
      exact int32Wrap_eq_self (by omega) (by omega)
    have hstep : updateStats hs d
        = { total := (i : Int) + 1,
            average := hs.average + (nanoToMilli d - hs.average) / ((i : ℚ) + 1) } := by
      unfold updateStats
      rw [hwrap]
      refine congrArg₂ HashStat.mk rfl ?_
      unfold nanoToMilli
      push_cast
      have hne : ((i : ℚ) + 1) ≠ 0 := Nat.cast_add_one_ne_zero i
      field_simp
      ring
    simp only [recordAll, List.foldl_cons]
    rw [hstep]
    rw [show List.foldl updateStats
        ({ total := (i : Int) + 1,
           average := hs.average + (nanoToMilli d - hs.average) / ((i : ℚ) + 1) } : HashStat) ds
      = recordAll { total := (i : Int) + 1,
                    average := hs.average + (nanoToMilli d - hs.average) / ((i : ℚ) + 1) } ds
      from rfl]
    obtain ⟨g1, g2⟩ :=
      ih { total := (i : Int) + 1,
           average := hs.average + (nanoToMilli d - hs.average) / ((i : ℚ) + 1) }
        (i + 1) (by push_cast; ring) (by push_cast; omega)
    constructor
    · rw [g1]
      push_cast [List.length_cons]
      ring
    · rw [g2]
      simp only [List.map_cons, specIncMeanAux]

theorem recordAll_single (hs : HashStat) (d : Int) :
    recordAll hs [d] = updateStats hs d := rfl

theorem hashStat_eta (x : HashStat) :
    x = { total := x.total, average := x.average } := rfl

theorem specIncMeanAux_zero_one (k : Nat) (hk : 1 ≤ k) :
    specIncMeanAux 0 0 (List.replicate k (1 : ℚ)) = 1 := by
  obtain ⟨j, rfl⟩ : ∃ j, k = j + 1 := ⟨k - 1, by omega⟩
  rw [List.replicate_succ]
  simp only [specIncMeanAux]
  norm_num
  exact specIncMeanAux_one j 1

/-- C3 (amended): in exact (rational) arithmetic and for every sequence of
at most `2^31 - 1` recorded durations, the average published by the
`updateStats` fold equals the specification's incremental mean
`avg_i = avg_(i-1) + (L_i - avg_(i-1)) / i` of the corresponding
millisecond latencies — the two formulas compute the same value.  The
length bound is necessary: the `int32` total wraps on record `2^31` (see
the counterexample).  (Over `float64` the two formulas agree only up to
rounding; this embedding models `float64` arithmetic exactly.) -/
theorem C3_running_average (ds : List Int) (hlen : ds.length ≤ 2 ^ 31 - 1) :
    (recordAll { total := 0, average := 0 } ds).average
      = specIncMean (ds.map nanoToMilli) := by
  have h := (recordAll_spec ds { total := 0, average := 0 } 0 (by norm_num)
    (by push_cast; omega)).2
  simpa [specIncMean] using h

/-- C3 witness: the hypothesis discharged at a concrete two-record input. -/
theorem C3_witness :
    (recordAll { total := 0, average := 0 } [1000000, 3000000]).average
      = specIncMean ([1000000, 3000000].map nanoToMilli) :=
  C3_running_average [1000000, 3000000] (by norm_num)

/-- C3 counterexample: the claim quantifies over every finite sequence of
recorded latencies, but `Total` is an `int32`: on the `2^31`-th record the
`atomic.AddInt32` wraps `num` to `-2^31`, and the average formula divides by
a negative count.  Recording `2^31 - 1` latencies of 1 ms and then one of
0 ms, the implementation publishes average `(2^31 + 1) / 2^31` (greater
than every recorded latency!) while the specification's incremental mean is
`(2^31 - 1) / 2^31`. -/
theorem C3_counterexample :
    (recordAll { total := 0, average := 0 }
        (List.replicate (2 ^ 31 - 1) 1000000 ++ [0])).average = (2 ^ 31 + 1) / 2 ^ 31 ∧
    specIncMean ((List.replicate (2 ^ 31 - 1) (1000000 : Int) ++ [(0 : Int)]).map nanoToMilli)
      = (2 ^ 31 - 1) / 2 ^ 31 ∧
    ((2 ^ 31 + 1 : ℚ) / 2 ^ 31) ≠ (2 ^ 31 - 1 : ℚ) / 2 ^ 31 := by
  have hmap : (List.replicate (2 ^ 31 - 1) (1000000 : Int)).map nanoToMilli
      = List.replicate (2 ^ 31 - 1) (1 : ℚ) := by
    rw [List.map_replicate]
    norm_num [nanoToMilli]
  have hzero : nanoToMilli 0 = 0 := by norm_num [nanoToMilli]
  have hconst := specIncMeanAux_zero_one (2 ^ 31 - 1) (by norm_num)
  obtain ⟨hpre_t, hpre_a⟩ :=
    recordAll_spec (List.replicate (2 ^ 31 - 1) 1000000) { total := 0, average := 0 }
      0 (by norm_num) (by rw [List.length_replicate]; push_cast)
  rw [hmap, hconst] at hpre_a
  rw [List.length_replicate] at hpre_t
  have hpre_t2 : (recordAll { total := 0, average := 0 }
      (List.replicate (2 ^ 31 - 1) 1000000)).total = 2147483647 := by
    rw [hpre_t]
    norm_num
  have hpre : recordAll { total := 0, average := 0 } (List.replicate (2 ^ 31 - 1) 1000000)
      = { total := 2147483647, average := 1 } := by
    rw [hashStat_eta (recordAll { total := 0, average := 0 }
      (List.replicate (2 ^ 31 - 1) 1000000)), hpre_t2, hpre_a]
  refine ⟨?_, ?_, by norm_num⟩
  · rw [recordAll_append, hpre, recordAll_single]
    unfold updateStats
    norm_num [int32Wrap]
  · unfold specIncMean
    rw [List.map_append, hmap, specIncMeanAux_append, hconst]
    simp only [List.map_cons, List.map_nil, hzero, List.length_replicate, specIncMeanAux]
    norm_num

/-! ### C4: snapshot immutability -/

/-- C4 counterexample: before the first `Record`, the published snapshot is
the freshly initialised cell `{0, 0}`; a single `updateStats` call mutates
that very cell's `Total` to 1 in place (via `atomic.AddInt32` on the loaded
pointer) before publishing the new snapshot, so a previously published
snapshot does not stay unchanged. -/
theorem C4_counterexample :
    initStatsWorld.cells.getD 0 { total := 0, average := 0 }
        = { total := 0, average := 0 } ∧
    initStatsWorld.published = 0 ∧
    (recordPtr initStatsWorld 5000000).cells.getD 0 { total := 0, average := 0 }
        = { total := 1, average := 0 } ∧
    ({ total := 1, average := 0 } : HashStat) ≠ { total := 0, average := 0 } := by
  decide

/-- C4 (amended): `Record` mutates the `Total` field of the *currently
published* snapshot in place (the atomic add on the loaded pointer) and then
atomically publishes a freshly allocated snapshot; the `average` field of
every existing snapshot, and every field of every cell other than the
published one, are left unchanged. -/
theorem C4_average_immutable_publish_fresh (w : StatsWorld) (d : Int) (i : Nat)
    (hi : i < w.cells.length) :
    ((recordPtr w d).cells.getD i { total := 0, average := 0 }).average
        = (w.cells.getD i { total := 0, average := 0 }).average ∧
    (i ≠ w.published →
      (recordPtr w d).cells.getD i { total := 0, average := 0 }
        = w.cells.getD i { total := 0, average := 0 }) ∧
    (recordPtr w d).published = w.cells.length ∧
    (recordPtr w d).cells.length = w.cells.length + 1 := by
  refine ⟨?_, ?_, ?_, ?_⟩
  · unfold recordPtr
    simp only [List.getD_eq_getElem?_getD, List.getElem?_append, List.length_set,
      List.getElem?_set, hi, if_true]
    by_cases hpi : w.published = i
    · subst hpi
      have hplen : w.published < w.cells.length := hi
      simp [hplen]
    · simp [hpi]
  · intro hne
    have hpi : ¬(w.published = i) := fun h => hne h.symm
    unfold recordPtr
    simp only [List.getD_eq_getElem?_getD, List.getElem?_append, List.length_set,
      List.getElem?_set, hi, if_true]
    simp [hpi]
  · unfold recordPtr
    simp [List.length_set]
  · unfold recordPtr
    simp [List.length_set]

/-- C4 witness: in a world with two snapshots (the older one no longer
published), a `Record` leaves the non-published cell entirely unchanged. -/
theorem C4_witness :
    (recordPtr { cells := [{ total := 0, average := 0 }, { total := 1, average := 5 }],
                 published := 1 } 2000000).cells.getD 0 { total := 0, average := 0 }
      = { total := 0, average := 0 } := by
  have h := (C4_average_immutable_publish_fresh
    { cells := [{ total := 0, average := 0 }, { total := 1, average := 5 }], published := 1 }
    2000000 0 (by decide)).2.1 (by decide)
  rw [h]
  decide

/-! ### C8: where the completion work runs -/

/-- C8 counterexample: the five-second delay, the digest computation and
the store write all occur on the handler's own goroutine (the source defers
`hashAndEncode`, and `defer` runs on the deferring goroutine at function
exit), and the POST path spawns no goroutine at all — contradicting the
claim that steps (a)-(d) execute on an independently scheduled unit of
concurrency that outlives the handler. -/
theorem C8_counterexample :
    HAction.sleepSeconds 5 ∈ handlerGoroutinePost ("x") ∧
    HAction.computeDigest ("x") ∈ handlerGoroutinePost ("x") ∧
    HAction.storeDigest ("x") ∈ handlerGoroutinePost ("x") ∧
    spawnedGoroutinesPost ("x") = [] := by
  decide

/-- C8 (amended): for an accepted submission the handler determines the job
id, writes the 200 response (into the response buffer) and records the
stats before the digest exists — the store and the five-second delay are
deferred — but the deferred completion work runs on the handler's own
goroutine after the handler body (no goroutine is spawned), so the handler,
and with it the actual flushing of the response by `net/http`, is blocked
until the completion work finishes. -/
theorem C8_defer_on_handler_goroutine (s : ServerState)
    (v : String) (d : Int) (hstop : s.stopping = false) (hv : v ≠ "") :
    (hashServeHTTP s Method.mpost ("/hash") v d).2
        = { status := 200, body := toString (int32Wrap (s.jobCounter + 1)) } ∧
    (hashServeHTTP s Method.mpost ("/hash") v d).1.hashes = s.hashes ∧
    (hashServeHTTP s Method.mpost ("/hash") v d).1.pending
        = s.pending ++ [(int32Wrap (s.jobCounter + 1), v)] ∧
    handlerGoroutinePost v
      = [HAction.writeStatusOK, HAction.writeJobIdBody, HAction.recordStats]
          ++ hashAndEncodeActions v ∧
    spawnedGoroutinesPost v = [] := by
  refine ⟨?_, ?_, ?_, rfl, rfl⟩ <;> simp [hashServeHTTP, hstop, hv]

/-- C8 witness: the hypotheses discharged at a concrete submission. -/
theorem C8_witness :
    (hashServeHTTP initState Method.mpost ("/hash") ("x") 0).2
        = { status := 200, body := toString (int32Wrap (initState.jobCounter + 1)) } ∧
    (hashServeHTTP initState Method.mpost ("/hash") ("x") 0).1.hashes
        = initState.hashes ∧
    (hashServeHTTP initState Method.mpost ("/hash") ("x") 0).1.pending
        = initState.pending ++ [(int32Wrap (initState.jobCounter + 1), "x")] ∧
    handlerGoroutinePost ("x")
      = [HAction.writeStatusOK, HAction.writeJobIdBody, HAction.recordStats]
          ++ hashAndEncodeActions ("x") ∧
    spawnedGoroutinesPost ("x") = [] :=
  C8_defer_on_handler_goroutine initState ("x") 0 rfl (by decide)

/-! ### C9: concurrent Record calls -/

/-- C9: the read-modify-publish of `updateStats` is not a single atomic
transition.  Under the interleaving A.Load, B.Load, A.Add, B.Add, B.Store,
A.Store (schedule `[0,1,0,1,1,0]`) both `Record(1 ms)` and `Record(3 ms)`
run to completion, yet the published snapshot is `{total 1, average 1}` —
B's update is lost: the total increased by 1, not 2, and the 3 ms latency
is not reflected.  A serialized schedule of the same two calls publishes
total 2, as the claim demands for every interleaving. -/
theorem C9_lost_update :
    (publishedStat (runSched twoRecordsWorld [0, 1, 0, 1, 1, 0])).total = 1 ∧
    (runSched twoRecordsWorld [0, 1, 0, 1, 1, 0]).threads.map RecThread.pc = [3, 3] ∧
    (publishedStat (runSched twoRecordsWorld [0, 1, 0, 1, 1, 0])).average = 1 ∧
    (publishedStat (runSched twoRecordsWorld [0, 0, 0, 1, 1, 1])).total = 2 := by
  refine ⟨by decide, by decide, ?_, by decide⟩
  norm_num [twoRecordsWorld, publishedStat, runSched, threadStep, mkRecThread, int32Wrap]

/-! ### C10: the two servers' digests agree -/

/-- C10: for every input, the digest the basic server's `encryptAndEncode`
returns equals the digest the concurrent server stores for that input:
both are the standard-base64 encoding of the SHA-512 hash of the input
bytes (abstracted as the shared pluggable primitives); concretely, after a
submission and its completed digest job, the stored entry for job id 1 is
exactly `encryptAndEncode` of the submitted value. -/
theorem C10_servers_agree (sha512Sum : List Nat → List Nat)
    (base64StdEncode : List Nat → String) (goBytes : String → List Nat)
    (data : String) (hdata : data ≠ "") :
    hashAndEncodeDigest sha512Sum base64StdEncode goBytes data
        = encryptAndEncode sha512Sum base64StdEncode goBytes data ∧
    (run (fun v => hashAndEncodeDigest sha512Sum base64StdEncode goBytes v) initState
        [postEv data, Ev.runJob]).hashes
      = [(1, encryptAndEncode sha512Sum base64StdEncode goBytes data)] := by
  refine ⟨rfl, ?_⟩
  have h1 : int32Wrap (initState.jobCounter + 1) = 1 := by norm_num [initState, int32Wrap]
  simp only [run, List.foldl_cons, List.foldl_nil, step, postEv]
  rw [show hashServeHTTP initState Method.mpost ("/hash") data 0
      = ({ initState with jobCounter := int32Wrap (initState.jobCounter + 1),
                          stats := updateStats initState.stats 0,
                          pending := initState.pending
                            ++ [(int32Wrap (initState.jobCounter + 1), data)] },
         { status := 200, body := toString (int32Wrap (initState.jobCounter + 1)) })
    from by simp [hashServeHTTP, hdata, initState]]
  simp [initState, h1, hashAndEncodeDigest, encryptAndEncode]
  norm_num [int32Wrap]

/-- C10 witness: the agreement instantiated with concrete digest
primitives and the specification's `angryMonkey` scenario value. -/
theorem C10_witness :
    hashAndEncodeDigest (fun b => b) (fun _ => "digestValue") (fun _ => []) ("angryMonkey")
        = encryptAndEncode (fun b => b) (fun _ => "digestValue") (fun _ => []) ("angryMonkey") ∧
    (run (fun v => hashAndEncodeDigest (fun b => b) (fun _ => "digestValue") (fun _ => []) v)
        initState [postEv ("angryMonkey"), Ev.runJob]).hashes
      = [(1, encryptAndEncode (fun b => b) (fun _ => "digestValue") (fun _ => [])
              ("angryMonkey"))] :=
  C10_servers_agree (fun b => b) (fun _ => "digestValue") (fun _ => []) ("angryMonkey")
    (by decide)
